import Mathlib

/-!
Shallow embedding of the timesheet computation and cell-mapping engine of
`scripts/export_wochenbericht.py` (Wochenbericht-App).

Python values occurring in a JSON day-record payload are modelled by `Val`
(null / number / string); Python floats are idealised as exact rationals `ℚ`.
Stateful spreadsheet writes (`ws[addr] = value`) become explicit functional
updates on a `Sheet`, a total map from (column letter, row number) to a cell
value.  Fallible parsing returns `Option`.
-/

namespace Wochenbericht

/-- A JSON field value as seen by the Python script: `None` (JSON null or an
absent key resolved through a `None` default), a number, or a string.
Other JSON types (booleans, arrays, objects) do not occur in the fields the
engine reads and are out of scope. -/
inductive Val
  | vnull
  | vnum (q : ℚ)
  | vstr (s : String)
  deriving DecidableEq, Repr

/-- `row.get(key, default)`: `none` models an absent key, `some .vnull` a key
explicitly bound to JSON null (Python `None`). -/
def getD (v : Option Val) (d : Val) : Val := v.getD d

/-- A `datetime.time` value as produced by `parse_time_value`
(`time(hour=..., minute=...)`); the constructor there validates
`0 ≤ hour ≤ 23` and `0 ≤ minute ≤ 59`. -/
structure Time where
  hour : ℕ
  minute : ℕ
  deriving DecidableEq, Repr

/-- A `datetime.date` value (proleptic Gregorian calendar). -/
structure DateD where
  year : ℕ
  month : ℕ
  day : ℕ
  deriving DecidableEq, Repr

def isDigitChar (c : Char) : Bool := '0' ≤ c && c ≤ '9'

def digitsToNat (l : List Char) : ℕ :=
  l.foldl (fun a c => a * 10 + (c.toNat - 48)) 0

def isSpaceChar (c : Char) : Bool := c.isWhitespace

def trimChars (l : List Char) : List Char :=
  ((l.dropWhile isSpaceChar).reverse.dropWhile isSpaceChar).reverse

/-- Python `s.strip()` (ASCII whitespace suffices for the engine's inputs). -/
def pyStrip (s : String) : String := ⟨trimChars s.data⟩

/-- Python `s.lower()` (ASCII). -/
def pyLower (s : String) : String := ⟨s.data.map Char.toLower⟩

/-- Python `int(s)` on a string: optional surrounding whitespace, optional
sign, then a non-empty run of decimal digits; anything else raises
`ValueError`, modelled as `none`.  (Underscore digit separators, accepted by
CPython, are not modelled; no input the engine builds contains them.) -/
def pyIntChars (l : List Char) : Option ℤ :=
  let t := trimChars l
  let signed : ℤ × List Char :=
    match t with
    | '+' :: r => (1, r)
    | '-' :: r => (-1, r)
    | r => (1, r)
  if signed.2 ≠ [] ∧ signed.2.all isDigitChar then
    some (signed.1 * (digitsToNat signed.2 : ℤ))
  else none

/-- Python `value.split(sep)` for a single-character separator: split a
character list at every occurrence of `sep`. -/
def splitAllOn (sep : Char) : List Char → List (List Char)
  | [] => [[]]
  | c :: r =>
    let rest := splitAllOn sep r
    if c = sep then [] :: rest
    else
      match rest with
      | h :: t => (c :: h) :: t
      | [] => [[c]]

/-- `parse_time_value` (export_wochenbericht.py lines 33-40): a falsy or
non-string value yields `None`; otherwise split on `":"`, require exactly two
parts, convert both with `int`, and build `time(hour, minute)` — any failure
(wrong number of parts, non-numeric part, out-of-range field) is caught and
yields `None`. -/
def parse_time_value (v : Val) : Option Time :=
  match v with
  | .vstr s =>
    if s = "" then none
    else
      match splitAllOn ':' s.data with
      | [hh, mm] =>
        match pyIntChars hh, pyIntChars mm with
        | some h, some m =>
          if 0 ≤ h ∧ h ≤ 23 ∧ 0 ≤ m ∧ m ≤ 59 then
            some ⟨h.toNat, m.toNat⟩
          else none
        | _, _ => none
      | _ => none
  | _ => none

/-- Split a character list at the first character satisfying `p`; the second
component is `none` when no such character occurs. -/
def splitOnceOn (p : Char → Bool) : List Char → List Char × Option (List Char)
  | [] => ([], none)
  | c :: r =>
    if p c then ([], some r)
    else
      let s := splitOnceOn p r
      (c :: s.1, s.2)

/-- Exponent of a Python float literal: optional sign, non-empty digit run. -/
def pyExpChars (l : List Char) : Option ℤ :=
  let signed : ℤ × List Char :=
    match l with
    | '+' :: r => (1, r)
    | '-' :: r => (-1, r)
    | r => (1, r)
  if signed.2 ≠ [] ∧ signed.2.all isDigitChar then
    some (signed.1 * (digitsToNat signed.2 : ℤ))
  else none

/-- The digits of an accepted Python float literal, before conversion to a
number: sign, integer-part digit value, fraction digit value with its length,
and the decimal exponent. -/
structure FloatLit where
  sign : ℤ
  ip : ℕ
  fp : ℕ
  fplen : ℕ
  exp : ℤ
  deriving DecidableEq, Repr

/-- Syntactic layer of Python `float(txt)`: optional sign, decimal digits
with an optional point, optional decimal exponent. -/
def pyFloatLit (l : List Char) : Option FloatLit :=
  let signed : ℤ × List Char :=
    match l with
    | '+' :: r => (1, r)
    | '-' :: r => (-1, r)
    | r => (1, r)
  let me := splitOnceOn (fun c => c = 'e' || c = 'E') signed.2
  let ifp := splitOnceOn (fun c => c = '.') me.1
  let ip := ifp.1
  let fp := ifp.2.getD []
  if ip.all isDigitChar ∧ fp.all isDigitChar ∧ (ip ≠ [] ∨ fp ≠ []) then
    match me.2 with
    | none => some ⟨signed.1, digitsToNat ip, digitsToNat fp, fp.length, 0⟩
    | some e =>
      match pyExpChars e with
      | some k => some ⟨signed.1, digitsToNat ip, digitsToNat fp, fp.length, k⟩
      | none => none
  else none

/-- Value of an accepted float literal as an exact rational. -/
def FloatLit.toRat (f : FloatLit) : ℚ :=
  (f.sign : ℚ) * ((f.ip : ℚ) + (f.fp : ℚ) / (10 : ℚ) ^ f.fplen) * (10 : ℚ) ^ f.exp

/-- Python `float(txt)` restricted to finite results.  `inf`/`nan` spellings
are not modelled as numbers, so the caller's `math.isfinite` rejection and
its `ValueError` handler coincide here: both yield `none`. -/
def pyFloatChars (l : List Char) : Option ℚ :=
  (pyFloatLit l).map FloatLit.toRat

/-- `parse_decimal` (lines 43-57): `None` stays `None`; a non-string value is
returned unchanged; a string is stripped and its comma replaced by a dot —
empty means no value, a finite float parse yields the number, anything else
yields the stripped original text. -/
def parse_decimal (v : Val) : Option Val :=
  match v with
  | .vnull => none
  | .vnum q => some (.vnum q)
  | .vstr s =>
    let txt : List Char :=
      (pyStrip s).data.map (fun c => if c = ',' then '.' else c)
    if txt = [] then none
    else
      match pyFloatChars txt with
      | some q => some (.vnum q)
      | none => some (.vstr (pyStrip s))

/-- `gross_hours` (lines 60-68): minute difference of the two clock times,
wrapped across midnight when negative, divided by 60. -/
def gross_hours : Option Time → Option Time → Option ℚ
  | some s, some e =>
    let start_minutes : ℤ := s.hour * 60 + s.minute
    let end_minutes : ℤ := e.hour * 60 + e.minute
    let diff := end_minutes - start_minutes
    let diff := if diff < 0 then diff + 24 * 60 else diff
    some ((diff : ℚ) / 60)
  | _, _ => none

/-- `auto_pause_hours` (lines 71-78): the three-tier break step function. -/
def auto_pause_hours : Option ℚ → Option ℚ
  | none => none
  | some hours =>
    if 9.5 < hours then some 0.75
    else if 6 < hours then some 0.5
    else some 0

/-- `infer_pause_from_net_hours` (lines 81-90): first candidate in
`(0.0, 0.5, 0.75)` whose auto-pause at `net + candidate` equals itself. -/
def infer_pause_from_net_hours : Option ℚ → Option ℚ
  | none => none
  | some net_hours =>
    ([0, 0.5, 0.75] : List ℚ).find?
      (fun pause => auto_pause_hours (some (net_hours + pause)) = some pause)

/-- Python `round(x, 2)` idealised on rationals: round half to even at two
decimal places. -/
def round2 (x : ℚ) : ℚ :=
  let y := x * 100
  let n := ⌊y⌋
  let f := y - n
  let r : ℤ :=
    if f < 1 / 2 then n
    else if 1 / 2 < f then n + 1
    else if n % 2 = 0 then n else n + 1
  (r : ℚ) / 100

/-! ### Calendar dates (`datetime.date`, proleptic Gregorian) -/

def is_leap_year (y : ℕ) : Bool :=
  (y % 4 = 0 && y % 100 ≠ 0) || y % 400 = 0

def days_in_month (y m : ℕ) : ℕ :=
  if m = 2 then (if is_leap_year y then 29 else 28)
  else if m = 4 ∨ m = 6 ∨ m = 9 ∨ m = 11 then 30
  else 31

def days_before_year (y : ℕ) : ℕ :=
  let n := y - 1
  365 * n + n / 4 + n / 400 - n / 100

def days_before_month (y m : ℕ) : ℕ :=
  (List.range (m - 1)).foldl (fun a i => a + days_in_month y (i + 1)) 0

/-- `date.toordinal()`: day count with 0001-01-01 ↦ 1. -/
def toOrdinal (d : DateD) : ℕ :=
  days_before_year d.year + days_before_month d.year d.month + d.day

/-- `date.isoweekday()`: Monday ↦ 1 … Sunday ↦ 7 (0001-01-01 was a Monday). -/
def isoweekday (d : DateD) : ℕ :=
  (toOrdinal d - 1) % 7 + 1

/-- `parse_iso_date` (lines 29-30): `datetime.strptime(value, "%Y-%m-%d")`.
The format regex demands exactly four year digits and one or two month/day
digits consuming the whole string; the `date` constructor then validates
year ≥ 1 (≤ 9999 is implied by four digits), month 1-12 and day within the
month.  A failure raises `ValueError`, modelled as `none` (callers catch it
or let it propagate, as in the source). -/
def parse_iso_date (s : String) : Option DateD :=
  match splitAllOn '-' s.data with
  | [ys, ms, ds] =>
    if ys.length = 4 ∧ ys.all isDigitChar ∧
        (ms.length = 1 ∨ ms.length = 2) ∧ ms.all isDigitChar ∧
        (ds.length = 1 ∨ ds.length = 2) ∧ ds.all isDigitChar then
      let y := digitsToNat ys
      let m := digitsToNat ms
      let d := digitsToNat ds
      if 1 ≤ y ∧ 1 ≤ m ∧ m ≤ 12 ∧ 1 ≤ d ∧ d ≤ days_in_month y m then
        some ⟨y, m, d⟩
      else none
    else none
  | _ => none

/-! ### Day records and the hour/break resolver -/

/-- One day-record of the JSON payload (`rows[i]`): each field is `none` when
the key is absent and `some .vnull` when bound to JSON null. -/
structure DayRecord where
  date : Option Val := none
  siteNameOrt : Option Val := none
  beginn : Option Val := none
  ende : Option Val := none
  dayHoursOverride : Option Val := none
  pauseOverride : Option Val := none
  lohnType : Option Val := none
  ausloese : Option Val := none
  zulage : Option Val := none
  projektnummer : Option Val := none
  kabelschachtInfo : Option Val := none
  smNr : Option Val := none
  bauleiter : Option Val := none
  arbeitskollege : Option Val := none
  deriving DecidableEq, Repr

/-- The "derive from time" sentinel for `dayHoursOverride`. -/
def SENTINEL : String := "__AUTO_FROM_TIME__"

/-- `compute_day_cell_value` (lines 93-113).  A string override is stripped;
when non-empty and not the sentinel it is returned through `parse_decimal`.
A non-null non-string override is returned unchanged.  Otherwise the value is
derived from the times: absent gross hours yield `None`; else a numeric
`pauseOverride` (or, failing that, the automatic pause, with Python's
`or 0.0` for the falsy/`None` cases) is subtracted and the result rounded to
two decimals. -/
def compute_day_cell_value (rec : DayRecord) : Option Val :=
  let from_times : Option Val :=
    let start := parse_time_value (getD rec.beginn (.vstr ""))
    let endv := parse_time_value (getD rec.ende (.vstr ""))
    match gross_hours start endv with
    | none => none
    | some gross =>
      match parse_decimal (getD rec.pauseOverride (.vstr "")) with
      | some (.vnum p) => some (.vnum (round2 (gross - p)))
      | _ =>
        let pause_auto := (auto_pause_hours (some gross)).getD 0
        some (.vnum (round2 (gross - pause_auto)))
  match getD rec.dayHoursOverride .vnull with
  | .vstr s =>
    if pyStrip s ≠ "" ∧ pyStrip s ≠ SENTINEL then parse_decimal (.vstr (pyStrip s))
    else from_times
  | .vnull => from_times
  | .vnum q => some (.vnum q)

/-! ### The spreadsheet grid and the writer -/

/-- What a written cell can hold: cleared (`None`), a number, text, a
`datetime.time`, or a `datetime.date`. -/
inductive CellV
  | cnull
  | cnum (q : ℚ)
  | cstr (s : String)
  | ctime (t : Time)
  | cdate (d : DateD)
  deriving DecidableEq, Repr

/-- The worksheet as a total map from (column letter, row number) to cell
content; `ws[f"{col}{row}"] = value` becomes a functional update. -/
def Sheet : Type := String × ℕ → CellV

/-- One assignment `ws[f"{col}{row}"] = value`. -/
def setCell (ws : Sheet) (col : String) (row : ℕ) (v : CellV) : Sheet :=
  fun a => if a = (col, row) then v else ws a

/-- Run a list of assignments in order (later writes win). -/
def applyWrites (ws : Sheet) (l : List (String × ℕ × CellV)) : Sheet :=
  l.foldl (fun w p => setCell w p.1 p.2.1 p.2.2) ws

/-- A Python value written directly into a cell. -/
def valToCell : Val → CellV
  | .vnull => .cnull
  | .vnum q => .cnum q
  | .vstr s => .cstr s

def WEEKDAY_COLUMNS : List String := ["H", "I", "J", "K", "L", "M", "N"]

def DATA_ROW_START : ℕ := 10

def DATA_ROW_END : ℕ := 49

/-- The columns cleared per data row by `clear_data_rows` (lines 144-153):
A, E, F, the weekday columns, and Q-X.  G (and the formula columns O/P) are
deliberately not cleared, to keep template formulas intact. -/
def CLEARED_COLUMNS : List String :=
  ["A", "E", "F"] ++ WEEKDAY_COLUMNS ++ ["Q", "R", "S", "T", "U", "V", "W", "X"]

/-- The assignments performed by `clear_data_rows`: every cleared column of
every data row set to `None`. -/
def clear_writes : List (String × ℕ × CellV) :=
  (List.range (DATA_ROW_END + 1 - DATA_ROW_START)).flatMap (fun i =>
    CLEARED_COLUMNS.map (fun c => (c, DATA_ROW_START + i, CellV.cnull)))

/-- `clear_data_rows` (lines 144-153). -/
def clear_data_rows (ws : Sheet) : Sheet :=
  applyWrites ws clear_writes

/-- Weekday column of a row (lines 166-171): only a string date is
considered; `parse_iso_date` failure is caught and yields no column
(as would an out-of-range index). -/
def weekday_col_for (v : Val) : Option String :=
  match v with
  | .vstr iso =>
    (parse_iso_date iso).bind (fun d => WEEKDAY_COLUMNS.get? (isoweekday d - 1))
  | _ => none

/-- Assignments of one data row before the weekday cell (lines 173-187):
site text into A, parsed clock times into E/F, and the break cell G — the
numeric `pauseOverride` if it parses, else the positive inferred pause when
no clock time is present and the day value is numeric. -/
def row_writes_head (row_no : ℕ) (rec : DayRecord) : List (String × ℕ × CellV) :=
  let start_t := parse_time_value (getD rec.beginn (.vstr ""))
  let end_t := parse_time_value (getD rec.ende (.vstr ""))
  let day_cell_value := compute_day_cell_value rec
  [("A", row_no, valToCell (getD rec.siteNameOrt (.vstr "")))]
  ++ (match start_t with | some t => [("E", row_no, CellV.ctime t)] | none => [])
  ++ (match end_t with | some t => [("F", row_no, CellV.ctime t)] | none => [])
  ++ (match parse_decimal (getD rec.pauseOverride (.vstr "")) with
      | some (.vnum p) => [("G", row_no, CellV.cnum p)]
      | _ =>
        if start_t = none ∧ end_t = none then
          match day_cell_value with
          | some (.vnum v) =>
            match infer_pause_from_net_hours (some v) with
            | some p => if 0 < p then [("G", row_no, CellV.cnum p)] else []
            | none => []
          | _ => []
        else [])

/-- The weekday hour-cell assignment of one data row (lines 189-193): with a
weekday column, a non-negative numeric day value is written as a number; a
string day value with non-empty strip is written stripped, the
case-insensitive token "x" normalised to lowercase. -/
def row_writes_week (row_no : ℕ) (rec : DayRecord) : List (String × ℕ × CellV) :=
  match weekday_col_for (getD rec.date .vnull) with
  | none => []
  | some c =>
    match compute_day_cell_value rec with
    | some (.vnum v) => if 0 ≤ v then [(c, row_no, CellV.cnum v)] else []
    | some (.vstr s) =>
      if pyStrip s ≠ "" then
        [(c, row_no, CellV.cstr (if pyLower (pyStrip s) = "x" then "x" else pyStrip s))]
      else []
    | _ => []

/-- Pass-through assignments of one data row (lines 195-207): Q-X, with
`zulage` and `smNr` run through `parse_decimal` and `None` replaced by
empty text. -/
def row_writes_tail (row_no : ℕ) (rec : DayRecord) : List (String × ℕ × CellV) :=
  let zulage := parse_decimal (getD rec.zulage (.vstr ""))
  let sm_num := parse_decimal (getD rec.smNr (.vstr ""))
  [("Q", row_no, valToCell (getD rec.lohnType (.vstr ""))),
   ("R", row_no, valToCell (getD rec.ausloese (.vstr ""))),
   ("S", row_no, match zulage with | some v => valToCell v | none => .cstr ""),
   ("T", row_no, valToCell (getD rec.projektnummer (.vstr ""))),
   ("U", row_no, valToCell (getD rec.kabelschachtInfo (.vstr ""))),
   ("V", row_no, match sm_num with | some v => valToCell v | none => .cstr ""),
   ("W", row_no, valToCell (getD rec.bauleiter (.vstr ""))),
   ("X", row_no, valToCell (getD rec.arbeitskollege (.vstr "")))]

/-- All assignments of one data row, in source order. -/
def row_writes (row_no : ℕ) (rec : DayRecord) : List (String × ℕ × CellV) :=
  row_writes_head row_no rec ++ row_writes_week row_no rec ++
    row_writes_tail row_no rec

/-- One iteration of the `write_rows` loop body (lines 162-207). -/
def write_row_step (ws : Sheet) (row_no : ℕ) (rec : DayRecord) : Sheet :=
  applyWrites ws (row_writes row_no rec)

/-- `write_rows` (lines 156-209): positional rows starting at row 10, the
input truncated to the 40-row capacity, returning the mutated sheet with the
written and truncated counts. -/
def write_rows (ws : Sheet) (rows : List DayRecord) : Sheet × ℕ × ℕ :=
  let max_rows := DATA_ROW_END - DATA_ROW_START + 1
  let truncated := rows.length - max_rows
  let rows_to_write := rows.take max_rows
  ((rows_to_write.enum).foldl
     (fun w p => write_row_step w (DATA_ROW_START + p.1) p.2) ws,
   rows_to_write.length, truncated)

/-! ### Header, date row, result assembly and `main` -/

structure Profile where
  name : Option Val := none
  vorname : Option Val := none
  arbeitsstaetteProjekte : Option Val := none
  artDerArbeit : Option Val := none

structure Payload where
  kw : ℤ := 0
  reportStartDe : String := ""
  reportEnd : String := ""
  profile : Profile := {}
  segmentDates : List String := []
  allWeekDates : List String := []
  rows : List DayRecord := []

/-- `write_header` (lines 116-125).  `parse_iso_date` failure on `reportEnd`
raises in the source; modelled as `none` (the partially mutated worksheet the
source leaves behind is discarded unsaved either way). -/
def write_header (ws : Sheet) (p : Payload) : Option Sheet :=
  (parse_iso_date p.reportEnd).map (fun d =>
    let ws := setCell ws "H" 1 (.cnum p.kw)
    let ws := setCell ws "L" 1 (.cstr p.reportStartDe)
    let ws := setCell ws "R" 1 (.cdate d)
    let ws := setCell ws "D" 3 (valToCell (getD p.profile.name (.vstr "")))
    let ws := setCell ws "P" 3 (valToCell (getD p.profile.vorname (.vstr "")))
    let ws := setCell ws "D" 5
      (valToCell (getD p.profile.arbeitsstaetteProjekte (.vstr "")))
    setCell ws "D" 6 (valToCell (getD p.profile.artDerArbeit (.vstr ""))))

/-- `clear_and_write_date_row` (lines 128-141): clear row 9 of the weekday
columns, then write the day-of-month of every segment-active week date into
its weekday column.  A date-parse failure raises in the source; modelled as
`none`. -/
def clear_and_write_date_row (ws : Sheet) (p : Payload) : Option Sheet :=
  let ws0 := WEEKDAY_COLUMNS.foldl (fun w c => setCell w c 9 .cnull) ws
  p.allWeekDates.foldlM (fun w iso =>
    if iso ∈ p.segmentDates then
      (parse_iso_date iso).bind (fun d =>
        (WEEKDAY_COLUMNS.get? (isoweekday d - 1)).map (fun c =>
          setCell w c 9 (.cnum d.day)))
    else some w) ws0

structure ExportResult where
  rows_written : ℕ
  rows_truncated : ℕ
  warnings : List String
  deriving DecidableEq, Repr

/-- The truncation warning string of lines 240-243. -/
def truncation_warning (t : ℕ) : String :=
  "More than 40 lines for this report. Export truncated by " ++ toString t ++
    " line(s) to fit Excel rows 10-49."

/-- Result assembly of lines 234-243 (the output path is plumbing and is
omitted). -/
def build_result (w t : ℕ) : ExportResult :=
  { rows_written := w, rows_truncated := t,
    warnings := if t ≠ 0 then [truncation_warning t] else [] }

/-- The loaded template workbook: its sheet names and the sheet named
"Wochenbericht" (meaningful only when that name is present). -/
structure Workbook where
  sheetnames : List String
  wochenbericht : Sheet

/-- `main` (lines 212-245) after the payload is read: fail fast when the
required sheet is missing (before anything is written), else run header,
date row, clearing and data rows in source order and assemble the result.
An error value models an uncaught exception: no sheet is produced and no
file is saved. -/
def main_model (wb : Workbook) (p : Payload) : Except String (Sheet × ExportResult) :=
  if "Wochenbericht" ∉ wb.sheetnames then
    Except.error "Sheet \x27Wochenbericht\x27 not found in template"
  else
    match write_header wb.wochenbericht p with
    | none => Except.error "ValueError: reportEnd does not match format %Y-%m-%d"
    | some ws1 =>
      match clear_and_write_date_row ws1 p with
      | none => Except.error "ValueError: week date does not match format %Y-%m-%d"
      | some ws2 =>
        let r := write_rows (clear_data_rows ws2) p.rows
        Except.ok (r.1, build_result r.2.1 r.2.2)

/-! ### Concrete demonstration inputs (used by witnesses) -/

/-- A template workbook carrying the required sheet, initially blank. -/
def wbC5 : Workbook :=
  { sheetnames := ["Wochenbericht"], wochenbericht := fun _ => CellV.cnull }

/-- A payload with 43 day-records — three over the 40-row capacity. -/
def pC5 : Payload :=
  { kw := 12, reportStartDe := "18.03.", reportEnd := "2024-03-24",
    rows := List.replicate 43 {} }

/-- The sheet after `write_header` on the demo payload. -/
def wsC5a : Sheet := (write_header wbC5.wochenbericht pC5).getD wbC5.wochenbericht

/-- The sheet after `clear_and_write_date_row` on the demo payload. -/
def wsC5b : Sheet := (clear_and_write_date_row wsC5a pC5).getD wsC5a

/-- The override falls through to time derivation (lines 94-100 take no
`return`): the key is absent or null, or a string that strips to empty or to
the sentinel.  Per the spec's data model, an absent/blank value and the
sentinel both mean "derive from time". -/
def override_derives (rec : DayRecord) : Prop :=
  getD rec.dayHoursOverride .vnull = .vnull ∨
  (∃ s, getD rec.dayHoursOverride .vnull = .vstr s ∧
    (pyStrip s = "" ∨ pyStrip s = SENTINEL))

/-! ### Helper lemmas on the grid writer -/

lemma setCell_agree {ws ws' : Sheet} {a : String × ℕ} (c : String) (r : ℕ)
    (v : CellV) (h : ws a = ws' a) : setCell ws c r v a = setCell ws' c r v a := by
  unfold setCell
  split <;> [rfl; exact h]

lemma applyWrites_agree {ws ws' : Sheet} {a : String × ℕ}
    (l : List (String × ℕ × CellV)) (h : ws a = ws' a) :
    applyWrites ws l a = applyWrites ws' l a := by
  induction l generalizing ws ws' with
  | nil => exact h
  | cons w t ih => exact ih (setCell_agree w.1 w.2.1 w.2.2 h)

lemma applyWrites_notin {a : String × ℕ} (l : List (String × ℕ × CellV))
    (h : ∀ w ∈ l, (w.1, w.2.1) ≠ a) (ws : Sheet) :
    applyWrites ws l a = ws a := by
  induction l generalizing ws with
  | nil => rfl
  | cons w t ih =>
    have step : setCell ws w.1 w.2.1 w.2.2 a = ws a := by
      unfold setCell
      rw [if_neg (fun he => h w (by simp) (by rw [he]))]
    rw [applyWrites, List.foldl_cons, ← applyWrites]
    rw [ih (fun x hx => h x (List.mem_cons_of_mem w hx)), step]

lemma applyWrites_append (ws : Sheet) (l1 l2 : List (String × ℕ × CellV)) :
    applyWrites ws (l1 ++ l2) = applyWrites (applyWrites ws l1) l2 := by
  unfold applyWrites
  rw [List.foldl_append]

lemma applyWrites_cnull {a : String × ℕ} (l : List (String × ℕ × CellV))
    (hv : ∀ w ∈ l, w.2.2 = CellV.cnull) (ws : Sheet) :
    applyWrites ws l a =
      if ∃ w ∈ l, (w.1, w.2.1) = a then CellV.cnull else ws a := by
  induction l generalizing ws with
  | nil => simp [applyWrites]
  | cons w t ih =>
    rw [applyWrites, List.foldl_cons, ← applyWrites]
    rw [ih (fun x hx => hv x (List.mem_cons_of_mem w hx))]
    by_cases ht : ∃ x ∈ t, (x.1, x.2.1) = a
    · rw [if_pos ht, if_pos (by rcases ht with ⟨x, hx, hxa⟩; exact ⟨x, by simp [hx], hxa⟩)]
    · rw [if_neg ht]
      unfold setCell
      by_cases hw : a = (w.1, w.2.1)
      · rw [if_pos hw, if_pos ⟨w, by simp, hw.symm⟩]
        exact hv w (by simp)
      · rw [if_neg hw, if_neg (by
          rintro ⟨x, hx, hxa⟩
          rcases List.mem_cons.mp hx with rfl | hxt
          · exact hw hxa.symm
          · exact ht ⟨x, hxt, hxa⟩)]

lemma clear_writes_mem (a : String × ℕ) :
    (∃ w ∈ clear_writes, (w.1, w.2.1) = a) ↔
      (a.1 ∈ CLEARED_COLUMNS ∧ DATA_ROW_START ≤ a.2 ∧ a.2 ≤ DATA_ROW_END) := by
  unfold clear_writes
  constructor
  · rintro ⟨w, hw, hwa⟩
    simp only [List.mem_flatMap, List.mem_range, List.mem_map] at hw
    obtain ⟨i, hi, c, hc, rfl⟩ := hw
    obtain rfl : a = (c, DATA_ROW_START + i) := hwa.symm
    refine ⟨hc, Nat.le_add_right _ _, ?_⟩
    show DATA_ROW_START + i ≤ DATA_ROW_END
    simp only [DATA_ROW_START, DATA_ROW_END] at hi ⊢
    omega
  · rintro ⟨hc, h1, h2⟩
    refine ⟨(a.1, a.2, CellV.cnull), ?_, rfl⟩
    simp only [List.mem_flatMap, List.mem_range, List.mem_map]
    refine ⟨a.2 - DATA_ROW_START, ?_, a.1, hc, ?_⟩
    · simp only [DATA_ROW_START, DATA_ROW_END] at h1 h2 ⊢
      omega
    · have hsub : DATA_ROW_START + (a.2 - DATA_ROW_START) = a.2 := by
        simp only [DATA_ROW_START] at h1 ⊢
        omega
      rw [hsub]

lemma clear_data_rows_apply (ws : Sheet) (a : String × ℕ) :
    clear_data_rows ws a =
      if a.1 ∈ CLEARED_COLUMNS ∧ DATA_ROW_START ≤ a.2 ∧ a.2 ≤ DATA_ROW_END then
        CellV.cnull
      else ws a := by
  unfold clear_data_rows
  rw [applyWrites_cnull clear_writes (by
    intro w hw
    unfold clear_writes at hw
    simp only [List.mem_flatMap, List.mem_range, List.mem_map] at hw
    obtain ⟨i, _, c, _, rfl⟩ := hw
    rfl) ws]
  by_cases h : a.1 ∈ CLEARED_COLUMNS ∧ DATA_ROW_START ≤ a.2 ∧ a.2 ≤ DATA_ROW_END
  · rw [if_pos ((clear_writes_mem a).mpr h), if_pos h]
  · rw [if_neg (fun hx => h ((clear_writes_mem a).mp hx)), if_neg h]

lemma write_rows_fold_agree (l : List (ℕ × DayRecord)) {ws ws' : Sheet}
    {a : String × ℕ} (h : ws a = ws' a) :
    (l.foldl (fun w p => write_row_step w (DATA_ROW_START + p.1) p.2) ws) a =
    (l.foldl (fun w p => write_row_step w (DATA_ROW_START + p.1) p.2) ws') a := by
  induction l generalizing ws ws' with
  | nil => exact h
  | cons p t ih =>
    exact ih (applyWrites_agree (row_writes (DATA_ROW_START + p.1) p.2) h)

lemma row_writes_head_cols (rn : ℕ) (rec : DayRecord) :
    ∀ w ∈ row_writes_head rn rec,
      w.1 ∈ (["A", "E", "F", "G"] : List String) ∧ w.2.1 = rn := by
  intro w hw
  unfold row_writes_head at hw
  simp only [List.mem_append] at hw
  rcases hw with ((hw | hw) | hw) | hw
  · simp only [List.mem_singleton] at hw
    subst hw
    exact ⟨by simp, rfl⟩
  · split at hw <;> simp only [List.mem_singleton, List.not_mem_nil] at hw
    subst hw
    exact ⟨by simp, rfl⟩
  · split at hw <;> simp only [List.mem_singleton, List.not_mem_nil] at hw
    subst hw
    exact ⟨by simp, rfl⟩
  · repeat' split at hw
    all_goals
      first
      | exact absurd hw (List.not_mem_nil _)
      | (obtain rfl := List.mem_singleton.mp hw; exact ⟨by simp, rfl⟩)

lemma row_writes_tail_cols (rn : ℕ) (rec : DayRecord) :
    ∀ w ∈ row_writes_tail rn rec,
      w.1 ∈ (["Q", "R", "S", "T", "U", "V", "W", "X"] : List String) ∧
        w.2.1 = rn := by
  intro w hw
  unfold row_writes_tail at hw
  simp only [List.mem_cons, List.not_mem_nil, or_false] at hw
  rcases hw with rfl | rfl | rfl | rfl | rfl | rfl | rfl | rfl <;>
    exact ⟨by simp, rfl⟩

lemma applyWrites_nil (ws : Sheet) : applyWrites ws [] = ws := rfl

lemma weekday_col_mem {v : Val} {c : String}
    (h : weekday_col_for v = some c) : c ∈ WEEKDAY_COLUMNS := by
  unfold weekday_col_for at h
  split at h
  · rcases Option.bind_eq_some.mp h with ⟨d, _, hg⟩
    exact List.get?_mem hg
  · exact absurd h (by simp)

lemma weekday_not_head_col {c : String} (hc : c ∈ WEEKDAY_COLUMNS) :
    c ∉ (["A", "E", "F", "G"] : List String) := by
  fin_cases hc <;> decide

lemma weekday_not_tail_col {c : String} (hc : c ∈ WEEKDAY_COLUMNS) :
    c ∉ (["Q", "R", "S", "T", "U", "V", "W", "X"] : List String) := by
  fin_cases hc <;> decide

/-! ### Helper lemmas on the hour/break resolver -/

lemma splitAllOn_eq_single {sep : Char} {l : List Char} (h : ¬ sep ∈ l) :
    splitAllOn sep l = [l] := by
  induction l with
  | nil => rfl
  | cons c r ih =>
    simp only [List.mem_cons, not_or] at h
    simp only [splitAllOn]
    rw [if_neg (fun hc => h.1 hc.symm), ih h.2]

lemma auto_pause_of_gt (g : ℚ) (h : 9.5 < g) :
    auto_pause_hours (some g) = some 0.75 := by
  simp [auto_pause_hours, h]

lemma auto_pause_of_mid (g : ℚ) (h1 : 6 < g) (h2 : g ≤ 9.5) :
    auto_pause_hours (some g) = some 0.5 := by
  simp [auto_pause_hours, h1, not_lt.2 h2]

lemma auto_pause_of_le (g : ℚ) (h : g ≤ 6) :
    auto_pause_hours (some g) = some 0 := by
  have h9 : ¬ (9.5 : ℚ) < g := by linarith
  simp [auto_pause_hours, h9, not_lt.2 h]

/-- Closed form of the break-inference loop. -/
lemma infer_pause_closed_form (n : ℚ) :
    infer_pause_from_net_hours (some n) =
      some (if 9 < n then 0.75 else if 6 < n then 0.5 else 0) := by
  simp only [infer_pause_from_net_hours]
  rcases le_or_lt n 6 with h6 | h6
  · have c0 : auto_pause_hours (some n) = some 0 := auto_pause_of_le n h6
    rw [if_neg (by linarith), if_neg (by linarith)]
    rw [List.find?_cons_of_pos _ (by simp [c0])]
  · have c0 : auto_pause_hours (some n) ≠ some 0 := by
      rcases le_or_lt n 9.5 with h95 | h95
      · rw [auto_pause_of_mid n h6 h95]; norm_num
      · rw [auto_pause_of_gt n h95]; norm_num
    rcases le_or_lt n 9 with h9 | h9
    · have c5 : auto_pause_hours (some (n + 0.5)) = some 0.5 :=
        auto_pause_of_mid _ (by linarith) (by linarith)
      rw [if_neg (by linarith), if_pos h6]
      rw [List.find?_cons_of_neg _ (by simp [c0]),
        List.find?_cons_of_pos _ (by simp [c5])]
    · have c5 : auto_pause_hours (some (n + 0.5)) = some 0.75 :=
        auto_pause_of_gt _ (by linarith)
      have c7 : auto_pause_hours (some (n + 0.75)) = some 0.75 :=
        auto_pause_of_gt _ (by linarith)
      rw [if_pos h9]
      rw [List.find?_cons_of_neg _ (by simp [c0]),
        List.find?_cons_of_neg _ (by simp [c5]; norm_num),
        List.find?_cons_of_pos _ (by simp [c7])]

end Wochenbericht

namespace Wochenbericht

/-! ## Claim theorems -/

/-- C2.  The automatic break is the three-tier step function of gross hours:
0.75 above 9.5 gross hours, 0.5 above 6 and up to 9.5, and 0 up to 6 gross
hours.  `auto_pause_hours` is a pure function in the embedding, so
recomputation on the same gross-hours value trivially yields the same break;
the step table is the substantive content. -/
theorem C2_auto_pause_step_function (g : ℚ) :
    (9.5 < g → auto_pause_hours (some g) = some 0.75) ∧
    (6 < g → g ≤ 9.5 → auto_pause_hours (some g) = some 0.5) ∧
    (g ≤ 6 → auto_pause_hours (some g) = some 0) :=
  ⟨auto_pause_of_gt g, auto_pause_of_mid g, auto_pause_of_le g⟩

/-- Witness for C2 at gross hours 10, 8 and 5. -/
theorem C2_auto_pause_step_function_witness :
    auto_pause_hours (some 10) = some 0.75 ∧
    auto_pause_hours (some 8) = some 0.5 ∧
    auto_pause_hours (some 5) = some 0 :=
  ⟨(C2_auto_pause_step_function 10).1 (by norm_num),
   (C2_auto_pause_step_function 8).2.1 (by norm_num) (by norm_num),
   (C2_auto_pause_step_function 5).2.2 (by norm_num)⟩

/-- C10.  On every numeric net-hours input the inference loop returns a
candidate — the `None` fallthrough is unreachable — and the result is 0 for
net ≤ 6, 0.5 for 6 < net ≤ 9, and 0.75 for net > 9. -/
theorem C10_infer_pause_total_on_numbers (net : ℚ) :
    infer_pause_from_net_hours (some net) =
      some (if 9 < net then 0.75 else if 6 < net then 0.5 else 0) ∧
    ∃ p, infer_pause_from_net_hours (some net) = some p ∧
      (p = 0 ∨ p = 0.5 ∨ p = 0.75) := by
  refine ⟨infer_pause_closed_form net, ?_⟩
  refine ⟨_, infer_pause_closed_form net, ?_⟩
  split_ifs <;> simp

/-- C3.  The break inferred from a net-hours figure is the smallest candidate
in {0, 0.5, 0.75} mapped back to itself by the automatic-break step function
at `net + candidate`; in particular net 8.0 yields 0.5 and net 5.0 yields
0. -/
theorem C3_infer_pause_minimal_consistent (net : ℚ) :
    (∃ p, infer_pause_from_net_hours (some net) = some p ∧
      p ∈ ([0, 0.5, 0.75] : List ℚ) ∧
      auto_pause_hours (some (net + p)) = some p ∧
      (∀ q ∈ ([0, 0.5, 0.75] : List ℚ),
        auto_pause_hours (some (net + q)) = some q → p ≤ q)) ∧
    infer_pause_from_net_hours (some 8) = some 0.5 ∧
    infer_pause_from_net_hours (some 5) = some 0 := by
  refine ⟨?_, by rw [infer_pause_closed_form]; norm_num,
    by rw [infer_pause_closed_form]; norm_num⟩
  rcases le_or_lt net 6 with h6 | h6
  · refine ⟨0, ?_, by norm_num, ?_, ?_⟩
    · rw [infer_pause_closed_form, if_neg (by linarith), if_neg (by linarith)]
    · rw [add_zero]; exact auto_pause_of_le net h6
    · intro q hq _
      fin_cases hq <;> norm_num
  · rcases le_or_lt net 9 with h9 | h9
    · refine ⟨0.5, ?_, by norm_num,
        auto_pause_of_mid _ (by linarith) (by linarith), ?_⟩
      · rw [infer_pause_closed_form, if_neg (by linarith), if_pos h6]
      · intro q hq hcons
        fin_cases hq
        · exfalso
          rw [add_zero, auto_pause_of_mid net h6 (by linarith)] at hcons
          norm_num at hcons
        · norm_num
        · norm_num
    · refine ⟨0.75, ?_, by norm_num, auto_pause_of_gt _ (by linarith), ?_⟩
      · rw [infer_pause_closed_form, if_pos h9]
      · intro q hq hcons
        fin_cases hq
        · exfalso
          rw [add_zero] at hcons
          rcases le_or_lt net 9.5 with h95 | h95
          · rw [auto_pause_of_mid net h6 h95] at hcons; norm_num at hcons
          · rw [auto_pause_of_gt net h95] at hcons; norm_num at hcons
        · exfalso
          rw [auto_pause_of_gt _ (by linarith)] at hcons
          norm_num at hcons
        · norm_num

/-- C1.  Day-hours precedence in `compute_day_cell_value`: a non-blank,
non-sentinel string override is returned through `parse_decimal` (parsed
decimal or passthrough text) no matter what `beginn`/`ende` hold; a numeric
override is returned as written; otherwise (absent, null, blank or sentinel
override — all of which the spec's data model reads as "derive from time")
the value comes from the times: gross hours minus the numeric
`pauseOverride` if one parses, else minus the automatic break, rounded to two
decimals; and with no derivable gross hours there is no value. -/
theorem C1_day_value_precedence (rec : DayRecord) :
    (∀ s : String, getD rec.dayHoursOverride .vnull = .vstr s →
      pyStrip s ≠ "" → pyStrip s ≠ SENTINEL →
      compute_day_cell_value rec = parse_decimal (.vstr (pyStrip s))) ∧
    (∀ q : ℚ, getD rec.dayHoursOverride .vnull = .vnum q →
      compute_day_cell_value rec = some (.vnum q)) ∧
    (override_derives rec →
      ∀ g : ℚ,
        gross_hours (parse_time_value (getD rec.beginn (.vstr "")))
          (parse_time_value (getD rec.ende (.vstr ""))) = some g →
        ((∀ p : ℚ,
            parse_decimal (getD rec.pauseOverride (.vstr "")) = some (.vnum p) →
            compute_day_cell_value rec = some (.vnum (round2 (g - p)))) ∧
         ((∀ p : ℚ,
             parse_decimal (getD rec.pauseOverride (.vstr "")) ≠ some (.vnum p)) →
            compute_day_cell_value rec =
              some (.vnum (round2 (g - (auto_pause_hours (some g)).getD 0)))))) ∧
    (override_derives rec →
      gross_hours (parse_time_value (getD rec.beginn (.vstr "")))
        (parse_time_value (getD rec.ende (.vstr ""))) = none →
      compute_day_cell_value rec = none) := by
  have reduce_derive : override_derives rec →
      ∀ r : Option Val,
        (let start := parse_time_value (getD rec.beginn (.vstr ""))
         let endv := parse_time_value (getD rec.ende (.vstr ""))
         match gross_hours start endv with
         | none => none
         | some gross =>
           match parse_decimal (getD rec.pauseOverride (.vstr "")) with
           | some (.vnum p) => some (.vnum (round2 (gross - p)))
           | _ =>
             let pause_auto := (auto_pause_hours (some gross)).getD 0
             some (.vnum (round2 (gross - pause_auto)))) = r →
        compute_day_cell_value rec = r := by
    intro hd r hr
    rcases hd with h0 | ⟨s, hs, hcase⟩
    · simp only [compute_day_cell_value, h0]
      exact hr
    · simp only [compute_day_cell_value, hs]
      rw [if_neg (by
        rcases hcase with h | h
        · exact fun hc => hc.1 h
        · exact fun hc => hc.2 h)]
      exact hr
  refine ⟨?_, ?_, ?_, ?_⟩
  · intro s hs hne hsent
    simp only [compute_day_cell_value, hs]
    rw [if_pos ⟨hne, hsent⟩]
  · intro q hq
    simp only [compute_day_cell_value, hq]
  · intro hd g hg
    constructor
    · intro p hp
      exact reduce_derive hd _ (by simp only [hg, hp])
    · intro hnp
      rcases hpd : parse_decimal (getD rec.pauseOverride (.vstr "")) with _ | v
      · exact reduce_derive hd _ (by simp only [hg, hpd])
      · cases v with
        | vnull => exact reduce_derive hd _ (by simp only [hg, hpd])
        | vstr s => exact reduce_derive hd _ (by simp only [hg, hpd])
        | vnum p => exact absurd hpd (hnp p)
  · intro hd hg
    exact reduce_derive hd _ (by simp only [hg])

/-- Witness for C1: override "7,5" wins over 08:00-17:00 times; numeric
override 9 is returned as written; without an override the same times give
9 gross hours minus the 0.5 automatic break, i.e. 8.5; and a record with no
usable times and no override has no value. -/
theorem C1_day_value_precedence_witness :
    compute_day_cell_value
        { dayHoursOverride := some (.vstr "7,5"),
          beginn := some (.vstr "08:00"), ende := some (.vstr "17:00") } =
      some (.vnum (15/2)) ∧
    compute_day_cell_value
        { dayHoursOverride := some (.vnum 9),
          beginn := some (.vstr "08:00"), ende := some (.vstr "17:00") } =
      some (.vnum 9) ∧
    compute_day_cell_value
        { beginn := some (.vstr "08:00"), ende := some (.vstr "17:00") } =
      some (.vnum (17/2)) ∧
    compute_day_cell_value { siteNameOrt := some (.vstr "Berlin") } = none := by
  have hb : parse_time_value (.vstr "08:00") = some ⟨8, 0⟩ := by decide
  have he : parse_time_value (.vstr "17:00") = some ⟨17, 0⟩ := by decide
  have hg : gross_hours (some ⟨8, 0⟩) (some ⟨17, 0⟩) = some 9 := by
    simp only [gross_hours, Option.some.injEq]
    norm_num
  refine ⟨?_, ?_, ?_, ?_⟩
  · have h := (C1_day_value_precedence
      { dayHoursOverride := some (.vstr "7,5"),
        beginn := some (.vstr "08:00"), ende := some (.vstr "17:00") }).1
      "7,5" rfl (by decide) (by decide)
    rw [h]
    have h3 : pyStrip "7,5" = "7,5" := by decide
    have h1 : (pyStrip "7,5").data.map (fun c => if c = ',' then '.' else c) =
        ['7', '.', '5'] := by decide
    have h2 : pyFloatLit ['7', '.', '5'] = some ⟨1, 7, 5, 1, 0⟩ := by decide
    rw [h3]
    simp [parse_decimal, h1, h2, pyFloatChars, FloatLit.toRat, h3]
    norm_num
  · exact (C1_day_value_precedence _).2.1 9 rfl
  · have h := ((C1_day_value_precedence
      { beginn := some (.vstr "08:00"), ende := some (.vstr "17:00") }).2.2.1
      (Or.inl rfl) 9
      (show gross_hours (parse_time_value (Val.vstr "08:00"))
          (parse_time_value (Val.vstr "17:00")) = some 9 by
        rw [hb, he]; exact hg)).2
      (by
        intro p
        show parse_decimal (Val.vstr "") ≠ some (.vnum p)
        have h0 : parse_decimal (Val.vstr "") = none := by decide
        simp [h0])
    rw [h]
    have ha : auto_pause_hours (some 9) = some 0.5 :=
      auto_pause_of_mid 9 (by norm_num) (by norm_num)
    rw [ha]
    norm_num [round2]
  · exact (C1_day_value_precedence _).2.2.2 (Or.inl rfl) (by decide)

/-- Witness for C3 at the spec's example inputs (net 8.0 and net 5.0). -/
theorem C3_infer_pause_minimal_consistent_witness :
    infer_pause_from_net_hours (some 8) = some 0.5 ∧
    infer_pause_from_net_hours (some 5) = some 0 :=
  ⟨(C3_infer_pause_minimal_consistent 8).2.1,
   (C3_infer_pause_minimal_consistent 5).2.2⟩

/-- C9.  Normalizer totality.  Both parsers are total functions into
`Option` in the embedding — no exception escapes them by construction —
and: any non-string, empty-string or colon-free input yields no time; any
returned time has in-range fields; `parse_decimal` maps null to no value,
returns non-strings unchanged, maps whitespace-only strings to no value,
accepts a comma as decimal point, and on any string returns either no value,
a (finite, since `ℚ` has no infinities) number, or the trimmed original
text.  Malformed fields therefore surface as `none`, never as errors. -/
theorem C9_normalizer_totality :
    (∀ q : ℚ, parse_time_value (.vnum q) = none) ∧
    parse_time_value .vnull = none ∧
    parse_time_value (.vstr "") = none ∧
    (∀ s : String, ¬ ':' ∈ s.data → parse_time_value (.vstr s) = none) ∧
    (∀ v t, parse_time_value v = some t → t.hour ≤ 23 ∧ t.minute ≤ 59) ∧
    parse_decimal .vnull = none ∧
    (∀ q : ℚ, parse_decimal (.vnum q) = some (.vnum q)) ∧
    (∀ s : String, pyStrip s = "" → parse_decimal (.vstr s) = none) ∧
    (∀ s : String, parse_decimal (.vstr s) = none ∨
      (∃ q : ℚ, parse_decimal (.vstr s) = some (.vnum q)) ∨
      parse_decimal (.vstr s) = some (.vstr (pyStrip s))) ∧
    parse_decimal (.vstr "1,5") = some (.vnum (3/2)) := by
  refine ⟨fun q => rfl, rfl, rfl, ?_, ?_, rfl, fun q => rfl, ?_, ?_, ?_⟩
  · intro s hs
    by_cases h0 : s = ""
    · rw [h0]; rfl
    · simp only [parse_time_value, if_neg h0, splitAllOn_eq_single hs]
  · intro v t h
    cases v with
    | vnull => exact absurd h (by simp [parse_time_value])
    | vnum q => exact absurd h (by simp [parse_time_value])
    | vstr s =>
      simp only [parse_time_value] at h
      split at h
      · exact absurd h (by simp)
      · split at h
        · rename_i hh mm heqsplit
          rcases hI : pyIntChars hh with _ | hv
          · simp only [hI] at h
            exact absurd h (by simp)
          · rcases hJ : pyIntChars mm with _ | mv
            · simp only [hI, hJ] at h
              exact absurd h (by simp)
            · simp only [hI, hJ] at h
              split at h
              · obtain rfl := Option.some.inj h
                show hv.toNat ≤ 23 ∧ mv.toNat ≤ 59
                omega
              · exact absurd h (by simp)
        · exact absurd h (by simp)
  · intro s h
    have hd : (pyStrip s).data = [] := by rw [h]
    simp [parse_decimal, hd]
  · intro s
    simp only [parse_decimal]
    split
    · exact Or.inl rfl
    · rcases hf : pyFloatChars
          ((pyStrip s).data.map fun c => if c = ',' then '.' else c) with _ | q
      · exact Or.inr (Or.inr (by simp [hf]))
      · exact Or.inr (Or.inl ⟨q, by simp [hf]⟩)
  · have h1 : (pyStrip "1,5").data.map (fun c => if c = ',' then '.' else c) =
        ['1', '.', '5'] := by decide
    have h2 : pyFloatLit ['1', '.', '5'] = some ⟨1, 1, 5, 1, 0⟩ := by decide
    simp [parse_decimal, h1, h2, pyFloatChars, FloatLit.toRat]
    norm_num

/-- Witness for C9 at concrete malformed inputs: a colon-free time string, a
numeric time input, a whitespace-only decimal string, and the in-range
guarantee at "22:47". -/
theorem C9_normalizer_totality_witness :
    parse_time_value (.vstr "0800") = none ∧
    parse_time_value (.vnum 8) = none ∧
    parse_decimal (.vstr "   ") = none ∧
    ((⟨22, 47⟩ : Time).hour ≤ 23 ∧ (⟨22, 47⟩ : Time).minute ≤ 59) := by
  refine ⟨?_, ?_, ?_, ?_⟩
  · exact C9_normalizer_totality.2.2.2.1 "0800" (by decide)
  · exact C9_normalizer_totality.1 8
  · exact C9_normalizer_totality.2.2.2.2.2.2.2.1 "   " (by decide)
  · exact C9_normalizer_totality.2.2.2.2.1 (.vstr "22:47") ⟨22, 47⟩ (by decide)

/-- C4.  Gross hours from a parsed start/end pair: the minute difference over
60 when end ≥ start, the midnight-wrapped difference `(1440 − start + end)/60`
when end < start, and absent when either time is absent. -/
theorem C4_gross_hours_wraps_midnight (t1 t2 : Time) :
    (((t1.hour * 60 + t1.minute : ℤ) ≤ (t2.hour * 60 + t2.minute : ℤ)) →
      gross_hours (some t1) (some t2) =
        some ((((t2.hour * 60 + t2.minute : ℤ) : ℚ) -
          ((t1.hour * 60 + t1.minute : ℤ) : ℚ)) / 60)) ∧
    (((t2.hour * 60 + t2.minute : ℤ) < (t1.hour * 60 + t1.minute : ℤ)) →
      gross_hours (some t1) (some t2) =
        some ((1440 - ((t1.hour * 60 + t1.minute : ℤ) : ℚ) +
          ((t2.hour * 60 + t2.minute : ℤ) : ℚ)) / 60)) ∧
    (∀ o : Option Time, gross_hours none o = none) ∧
    (∀ o : Option Time, gross_hours o none = none) := by
  refine ⟨?_, ?_, fun o => rfl, fun o => by cases o <;> rfl⟩
  · intro hle
    have h : ¬ ((t2.hour * 60 + t2.minute : ℤ) -
        (t1.hour * 60 + t1.minute : ℤ) < 0) := by omega
    simp only [gross_hours, if_neg h, Option.some.injEq]
    push_cast
    ring
  · intro hlt
    have h : ((t2.hour * 60 + t2.minute : ℤ) -
        (t1.hour * 60 + t1.minute : ℤ)) < 0 := by omega
    simp only [gross_hours, if_pos h, Option.some.injEq]
    push_cast
    ring

/-- C6.  Missing-sheet failure: when the workbook has no sheet named
"Wochenbericht", `main` raises before any header, date-row or data-row write
and before any save; in the embedding `main_model` returns the descriptive
error and no sheet/result pair is produced. -/
theorem C6_missing_sheet_fails_fast (wb : Workbook) (p : Payload)
    (h : "Wochenbericht" ∉ wb.sheetnames) :
    main_model wb p =
      Except.error "Sheet \x27Wochenbericht\x27 not found in template" ∧
    ∀ r : Sheet × ExportResult, main_model wb p ≠ Except.ok r := by
  have he : main_model wb p =
      Except.error "Sheet \x27Wochenbericht\x27 not found in template" := by
    unfold main_model
    rw [if_pos h]
  refine ⟨he, fun r hr => ?_⟩
  rw [he] at hr
  exact Except.noConfusion hr

/-- Witness for C6: a template whose only sheet is "Tabelle1". -/
theorem C6_missing_sheet_fails_fast_witness :
    main_model { sheetnames := ["Tabelle1"], wochenbericht := fun _ => CellV.cnull } {} =
      Except.error "Sheet \x27Wochenbericht\x27 not found in template" :=
  (C6_missing_sheet_fails_fast
    { sheetnames := ["Tabelle1"], wochenbericht := fun _ => CellV.cnull } {}
    (by decide)).1

/-- C5.  Truncation: `write_rows` writes `min(N, 40)` rows — exactly the
first 40 in input order (the written sheet depends only on `rows.take 40`;
row numbers are `10 + index` by construction) — reports
`rows_truncated = N − 40` (natural subtraction, i.e. `max(0, N − 40)`),
`main` still succeeds, and the result carries the truncation warning——which
names the exact count and the window "10-49"——exactly when rows were
truncated. -/
theorem C5_truncation (wb : Workbook) (p : Payload) (ws1 ws2 : Sheet)
    (hsheet : "Wochenbericht" ∈ wb.sheetnames)
    (hh : write_header wb.wochenbericht p = some ws1)
    (hd : clear_and_write_date_row ws1 p = some ws2) :
    (write_rows (clear_data_rows ws2) p.rows).2.1 = min p.rows.length 40 ∧
    (write_rows (clear_data_rows ws2) p.rows).2.2 = p.rows.length - 40 ∧
    main_model wb p =
      Except.ok ((write_rows (clear_data_rows ws2) p.rows).1,
        build_result (min p.rows.length 40) (p.rows.length - 40)) ∧
    (write_rows (clear_data_rows ws2) p.rows).1 =
      (write_rows (clear_data_rows ws2) (p.rows.take 40)).1 ∧
    ((build_result (min p.rows.length 40) (p.rows.length - 40)).warnings ≠ [] ↔
      0 < p.rows.length - 40) ∧
    (∀ t : ℕ, truncation_warning t =
      "More than 40 lines for this report. Export truncated by " ++ toString t ++
        " line(s) to fit Excel rows 10-49.") := by
  have hw1 : (write_rows (clear_data_rows ws2) p.rows).2.1 = min p.rows.length 40 := by
    show (p.rows.take 40).length = min p.rows.length 40
    rw [List.length_take, min_comm]
  have hw2 : (write_rows (clear_data_rows ws2) p.rows).2.2 = p.rows.length - 40 := rfl
  refine ⟨hw1, hw2, ?_, ?_, ?_, fun t => rfl⟩
  · unfold main_model
    rw [if_neg (not_not_intro hsheet)]
    simp only [hh, hd]
    rw [hw1, hw2]
  · show ((p.rows.take 40).enum.foldl
        (fun w q => write_row_step w (DATA_ROW_START + q.1) q.2)
        (clear_data_rows ws2)) =
      (((p.rows.take 40).take 40).enum.foldl
        (fun w q => write_row_step w (DATA_ROW_START + q.1) q.2)
        (clear_data_rows ws2))
    rw [List.take_take]
    norm_num
  · unfold build_result
    by_cases ht : p.rows.length - 40 = 0
    · rw [ht]
      simp
    · simp only [ne_eq, ht, not_false_eq_true, if_true]
      simp only [List.cons_ne_nil, not_false_eq_true, true_iff]
      omega

/-- Witness for C5 at the spec example: 43 day-records give 40 written rows,
3 truncated, a successful result, and a warning that mentions the count. -/
theorem C5_truncation_witness :
    (write_rows (clear_data_rows wsC5b) pC5.rows).2.1 = 40 ∧
    (write_rows (clear_data_rows wsC5b) pC5.rows).2.2 = 3 ∧
    (build_result (min pC5.rows.length 40) (pC5.rows.length - 40)).warnings ≠ [] := by
  have h := C5_truncation wbC5 pC5 wsC5a wsC5b (by decide) rfl rfl
  refine ⟨h.1.trans (by decide), h.2.1.trans (by decide), ?_⟩
  rw [h.2.2.2.2.1]
  decide

/-- C7 (amended).  Clear-before-write holds for the cleared column set
{A, E, F, H-N, Q-X} over rows 10-49: those cells are set to `None` before
data rows are written, and the post-write content there is independent of
whatever a previous run left in the sheet.  The pause column G — although the
writer may write it — is deliberately *not* cleared (to preserve the template
formula), and cells outside the cleared set are untouched by the clearing
pass. -/
theorem C7_clear_before_write_scope (ws ws' : Sheet) (rows : List DayRecord)
    (a b : String × ℕ) (hc : a.1 ∈ CLEARED_COLUMNS)
    (h1 : DATA_ROW_START ≤ a.2) (h2 : a.2 ≤ DATA_ROW_END)
    (hb : b.1 ∉ CLEARED_COLUMNS) :
    clear_data_rows ws a = CellV.cnull ∧
    (write_rows (clear_data_rows ws) rows).1 a =
      (write_rows (clear_data_rows ws') rows).1 a ∧
    clear_data_rows ws b = ws b := by
  have hcl : ∀ w : Sheet, clear_data_rows w a = CellV.cnull := fun w => by
    rw [clear_data_rows_apply, if_pos ⟨hc, h1, h2⟩]
  refine ⟨hcl ws, ?_, ?_⟩
  · show ((rows.take (DATA_ROW_END - DATA_ROW_START + 1)).enum.foldl
        (fun w q => write_row_step w (DATA_ROW_START + q.1) q.2)
        (clear_data_rows ws)) a =
      ((rows.take (DATA_ROW_END - DATA_ROW_START + 1)).enum.foldl
        (fun w q => write_row_step w (DATA_ROW_START + q.1) q.2)
        (clear_data_rows ws')) a
    exact write_rows_fold_agree _ (by rw [hcl ws, hcl ws'])
  · rw [clear_data_rows_apply, if_neg (fun hx => hb hx.1)]

/-- Witness for C7 (amended): a weekday cell in range is cleared, the empty
row list leaves the two runs agreeing there, and the uncleared pause cell G10
keeps its prior content. -/
theorem C7_clear_before_write_scope_witness :
    clear_data_rows (fun _ => CellV.cnum 2) ("H", 10) = CellV.cnull ∧
    (write_rows (clear_data_rows (fun _ => CellV.cnum 2)) []).1 ("H", 10) =
      (write_rows (clear_data_rows (fun _ => CellV.cnull)) []).1 ("H", 10) ∧
    clear_data_rows (fun _ => CellV.cnum 2) ("G", 10) = CellV.cnum 2 :=
  C7_clear_before_write_scope (fun _ => CellV.cnum 2) (fun _ => CellV.cnull) []
    ("H", 10) ("G", 10) (by decide) (by decide) (by decide) (by decide)

/-- Counterexample to C7 as stated: column G lies in the writer's write set
(an explicit or inferred pause is written there) yet `clear_data_rows` does
not clear it, so a re-export against a previously filled document can keep a
stale pause.  Concretely: one day-record with times 08:00-17:00 and no pause
override writes nothing to G10, and after clear-and-write the sheet that
started with G10 = 1 still shows 1 where a fresh sheet shows `None`. -/
theorem C7_clear_before_write_counterexample :
    (write_rows (clear_data_rows
        (fun a => if a = ("G", 10) then CellV.cnum 1 else CellV.cnull))
      [{ beginn := some (.vstr "08:00"), ende := some (.vstr "17:00") }]).1
        ("G", 10) = CellV.cnum 1 ∧
    (write_rows (clear_data_rows (fun _ => CellV.cnull))
      [{ beginn := some (.vstr "08:00"), ende := some (.vstr "17:00") }]).1
        ("G", 10) = CellV.cnull ∧
    clear_data_rows (fun a => if a = ("G", 10) then CellV.cnum 1 else CellV.cnull)
      ("G", 10) = CellV.cnum 1 := by
  have hrw : row_writes 10
      { beginn := some (.vstr "08:00"), ende := some (.vstr "17:00") } =
      [("A", 10, .cstr ""), ("E", 10, .ctime ⟨8, 0⟩), ("F", 10, .ctime ⟨17, 0⟩),
       ("Q", 10, .cstr ""), ("R", 10, .cstr ""), ("S", 10, .cstr ""),
       ("T", 10, .cstr ""), ("U", 10, .cstr ""), ("V", 10, .cstr ""),
       ("W", 10, .cstr ""), ("X", 10, .cstr "")] := by decide
  have hstep : ∀ X : Sheet,
      (write_rows X
        [{ beginn := some (.vstr "08:00"), ende := some (.vstr "17:00") }]).1
        ("G", 10) = X ("G", 10) := by
    intro X
    show write_row_step X (DATA_ROW_START + 0)
      { beginn := some (.vstr "08:00"), ende := some (.vstr "17:00") } ("G", 10) =
      X ("G", 10)
    unfold write_row_step
    rw [show DATA_ROW_START + 0 = 10 from rfl, hrw]
    refine applyWrites_notin _ ?_ X
    intro w hw
    fin_cases hw <;> decide
  have hg : ("G" : String) ∉ CLEARED_COLUMNS := by decide
  have hclear : ∀ X : Sheet, clear_data_rows X ("G", 10) = X ("G", 10) := by
    intro X
    rw [clear_data_rows_apply, if_neg (fun hx => hg hx.1)]
  refine ⟨?_, ?_, hclear _⟩
  · rw [hstep, hclear, if_pos rfl]
  · rw [hstep, hclear]

/-- C8.  Weekday hour-cell rule of the `write_rows` loop body: with a valid
date (a weekday column resolves), the resolved day value is written as a
number exactly when it is a non-negative number; a negative number is not
written; non-empty text is written as-is (resolved values are already
stripped) except that the single-character token "x"/"X" is normalised to
lowercase "x"; blank text or no value writes nothing; and without a valid
date no weekday-column cell of that row is touched. -/
theorem C8_weekday_cell_write_rule (ws : Sheet) (rn : ℕ) (rec : DayRecord) :
    (weekday_col_for (getD rec.date .vnull) = none →
      ∀ c ∈ WEEKDAY_COLUMNS, write_row_step ws rn rec (c, rn) = ws (c, rn)) ∧
    (∀ c : String, weekday_col_for (getD rec.date .vnull) = some c →
      ((∀ v : ℚ, compute_day_cell_value rec = some (.vnum v) → 0 ≤ v →
          write_row_step ws rn rec (c, rn) = CellV.cnum v) ∧
       (∀ v : ℚ, compute_day_cell_value rec = some (.vnum v) → v < 0 →
          write_row_step ws rn rec (c, rn) = ws (c, rn)) ∧
       (∀ s : String, compute_day_cell_value rec = some (.vstr s) →
          pyStrip s ≠ "" →
          write_row_step ws rn rec (c, rn) =
            CellV.cstr (if pyLower (pyStrip s) = "x" then "x" else pyStrip s)) ∧
       (∀ s : String, compute_day_cell_value rec = some (.vstr s) →
          pyStrip s = "" →
          write_row_step ws rn rec (c, rn) = ws (c, rn)) ∧
       (compute_day_cell_value rec = none →
          write_row_step ws rn rec (c, rn) = ws (c, rn)))) := by
  have hsplit : ∀ X : Sheet, ∀ c ∈ WEEKDAY_COLUMNS,
      write_row_step X rn rec (c, rn) =
        applyWrites (applyWrites X (row_writes_head rn rec))
          (row_writes_week rn rec) (c, rn) := by
    intro X c hcW
    unfold write_row_step row_writes
    rw [applyWrites_append, applyWrites_append]
    refine applyWrites_notin _ ?_ _
    intro w hw he
    have hcols := row_writes_tail_cols rn rec w hw
    have h1 : w.1 = c := congrArg Prod.fst he
    exact weekday_not_tail_col hcW (h1 ▸ hcols.1)
  have hhead : ∀ X : Sheet, ∀ c ∈ WEEKDAY_COLUMNS,
      applyWrites X (row_writes_head rn rec) (c, rn) = X (c, rn) := by
    intro X c hcW
    refine applyWrites_notin _ ?_ _
    intro w hw he
    have hcols := row_writes_head_cols rn rec w hw
    have h1 : w.1 = c := congrArg Prod.fst he
    exact weekday_not_head_col hcW (h1 ▸ hcols.1)
  constructor
  · intro hn c hcW
    have hwk : row_writes_week rn rec = [] := by
      simp only [row_writes_week, hn]
    rw [hsplit ws c hcW, hwk, applyWrites_nil, hhead ws c hcW]
  · intro c hsome
    have hcW : c ∈ WEEKDAY_COLUMNS := weekday_col_mem hsome
    have hone : ∀ v : CellV,
        applyWrites (applyWrites ws (row_writes_head rn rec))
          [(c, rn, v)] (c, rn) = v := by
      intro v
      show setCell _ c rn v (c, rn) = v
      unfold setCell
      rw [if_pos rfl]
    refine ⟨?_, ?_, ?_, ?_, ?_⟩
    · intro v hv hpos
      have hwk : row_writes_week rn rec = [(c, rn, CellV.cnum v)] := by
        simp only [row_writes_week, hsome, hv]
        rw [if_pos hpos]
      rw [hsplit ws c hcW, hwk, hone]
    · intro v hv hneg
      have hwk : row_writes_week rn rec = [] := by
        simp only [row_writes_week, hsome, hv]
        rw [if_neg (not_le.mpr hneg)]
      rw [hsplit ws c hcW, hwk, applyWrites_nil, hhead ws c hcW]
    · intro str hv hne
      have hwk : row_writes_week rn rec =
          [(c, rn, CellV.cstr
            (if pyLower (pyStrip str) = "x" then "x" else pyStrip str))] := by
        simp only [row_writes_week, hsome, hv]
        rw [if_pos hne]
      rw [hsplit ws c hcW, hwk, hone]
    · intro str hv hse
      have hwk : row_writes_week rn rec = [] := by
        simp only [row_writes_week, hsome, hv]
        rw [if_neg (fun hx => hx hse)]
      rw [hsplit ws c hcW, hwk, applyWrites_nil, hhead ws c hcW]
    · intro hv
      have hwk : row_writes_week rn rec = [] := by
        simp only [row_writes_week, hsome, hv]
      rw [hsplit ws c hcW, hwk, applyWrites_nil, hhead ws c hcW]

/-- Witness for C8: a Wednesday record (2024-03-20, column J) with times
08:00-17:00 writes 8.5 into J10; the same date with the absence override "X"
writes the normalised "x"; and a record without a date leaves H10
untouched. -/
theorem C8_weekday_cell_write_rule_witness :
    write_row_step (fun _ => CellV.cnull) 10
      { date := some (.vstr "2024-03-20"), beginn := some (.vstr "08:00"),
        ende := some (.vstr "17:00") } ("J", 10) = CellV.cnum (17 / 2) ∧
    write_row_step (fun _ => CellV.cnull) 10
      { date := some (.vstr "2024-03-20"), dayHoursOverride := some (.vstr "X") }
      ("J", 10) = CellV.cstr "x" ∧
    write_row_step (fun _ => CellV.cnull) 10
      { beginn := some (.vstr "08:00"), ende := some (.vstr "17:00") } ("H", 10) =
      CellV.cnull := by
  have hdcv : compute_day_cell_value
      { date := some (.vstr "2024-03-20"), beginn := some (.vstr "08:00"),
        ende := some (.vstr "17:00") } = some (.vnum (17 / 2)) := by
    have hb : parse_time_value (.vstr "08:00") = some ⟨8, 0⟩ := by decide
    have he : parse_time_value (.vstr "17:00") = some ⟨17, 0⟩ := by decide
    have hp : parse_decimal (.vstr "") = none := by decide
    simp only [compute_day_cell_value, getD, Option.getD, hb, he, hp, gross_hours,
      auto_pause_hours]
    norm_num [round2]
  have hdx : compute_day_cell_value
      { date := some (.vstr "2024-03-20"), dayHoursOverride := some (.vstr "X") } =
      some (.vstr "X") := by decide
  refine ⟨?_, ?_, ?_⟩
  · exact ((C8_weekday_cell_write_rule (fun _ => CellV.cnull) 10
      { date := some (.vstr "2024-03-20"), beginn := some (.vstr "08:00"),
        ende := some (.vstr "17:00") }).2 "J" (by decide)).1 (17 / 2) hdcv
      (by norm_num)
  · have h := ((C8_weekday_cell_write_rule (fun _ => CellV.cnull) 10
      { date := some (.vstr "2024-03-20"),
        dayHoursOverride := some (.vstr "X") }).2 "J" (by decide)).2.2.1 "X" hdx
      (by decide)
    rw [h]
    decide
  · exact (C8_weekday_cell_write_rule (fun _ => CellV.cnull) 10
      { beginn := some (.vstr "08:00"), ende := some (.vstr "17:00") }).1
      (by decide) "H" (by decide)

/-- Witness for C4: 08:00-17:00 gives the plain difference, 22:00-06:00
wraps across midnight. -/
theorem C4_gross_hours_wraps_midnight_witness :
    gross_hours (some ⟨8, 0⟩) (some ⟨17, 0⟩) =
      some ((((((17 : ℕ) * 60 + (0 : ℕ) : ℤ)) : ℚ) -
        ((((8 : ℕ) * 60 + (0 : ℕ) : ℤ)) : ℚ)) / 60) ∧
    gross_hours (some ⟨22, 0⟩) (some ⟨6, 0⟩) =
      some ((1440 - ((((22 : ℕ) * 60 + (0 : ℕ) : ℤ)) : ℚ) +
        ((((6 : ℕ) * 60 + (0 : ℕ) : ℤ)) : ℚ)) / 60) :=
  ⟨(C4_gross_hours_wraps_midnight ⟨8, 0⟩ ⟨17, 0⟩).1 (by decide),
   (C4_gross_hours_wraps_midnight ⟨22, 0⟩ ⟨6, 0⟩).2.1 (by decide)⟩

end Wochenbericht

